import Mathlib

/-!
Verification of the sec-parser repository's semantic segmentation core
against its natural-language specification.

The development shallowly embeds the Python sources:
  * `sec-parser-taibui/parser.py` — `ElementType`, `SemanticElement`,
    `EnhancedSECParser` (`parse_html`, `_process_element`, `_process_table`,
    `_classify_element`, `_classify_text`, `_is_subheader`, `to_dict`);
  * `sec-parser-external/your_sec_parser/processing_steps/section_manager.py`
    — `SectionManager.process`.

Python strings are modelled as Lean `String`s; CPython string methods
(`strip`, `isupper`, `split`, `startswith`, substring membership) and the
five `re.match` patterns of `_is_subheader` are reimplemented character by
character so that everything is executable and kernel-reducible.  Floats
only ever appear as the literal confidence constants 0.8 … 1.0, which are
compared but never subjected to arithmetic, so they are represented
exactly as rationals.
-/

/-! ## Python string primitives -/

/-- The whitespace class used by CPython's `str.strip()` and by `\s` in the
`re` module, restricted to the ASCII range that the parser's inputs use:
space, tab, newline, carriage return, vertical tab, form feed. -/
def pyIsSpace (c : Char) : Bool :=
  c = ' ' || c = '\t' || c = '\n' || c = '\r' || c = '\x0b' || c = '\x0c'

/-- `str.strip()` on a character list: drop whitespace from both ends. -/
def stripList (l : List Char) : List Char :=
  ((l.dropWhile pyIsSpace).reverse.dropWhile pyIsSpace).reverse

/-- Python `text.strip()`. -/
def pyStrip (s : String) : String :=
  ⟨stripList s.data⟩

/-- Python `s.startswith(p)` via explicit character comparison. -/
def isPrefixChars : List Char → List Char → Bool
  | _, [] => true
  | [], _ :: _ => false
  | c :: t, d :: u => c = d && isPrefixChars t u

/-- Python `s.startswith(p)`. -/
def pyStartsWith (s p : String) : Bool :=
  isPrefixChars s.data p.data

/-- Python `s.isupper()`: at least one cased character and no lowercase
cased character (ASCII: cased = alphabetic). -/
def pyIsUpper (s : String) : Bool :=
  s.data.any (fun c => c.isAlpha) && s.data.all (fun c => !c.isLower)

/-- Helper for Python `len(text.split())`: counts maximal nonblank runs.
The flag records whether the previous character was part of a word. -/
def countWordsAux : Bool → List Char → Nat
  | _, [] => 0
  | inWord, c :: t =>
    if pyIsSpace c then countWordsAux false t
    else (if inWord then 0 else 1) + countWordsAux true t

/-- Python `len(text.split())`. -/
def pyWordCount (s : String) : Nat :=
  countWordsAux false s.data

/-- Python `needle in hay` on strings (substring membership). -/
def containsSub : List Char → List Char → Bool
  | hay, needle =>
    isPrefixChars hay needle ||
      match hay with
      | [] => false
      | _ :: t => containsSub t needle

/-! ## The five `re.match` subheader patterns of `_is_subheader`

Each regex is anchored at the start (`re.match`) and need not consume the
whole string.  `\s+[A-Z]` is matched by consuming whitespace greedily and
demanding an ASCII uppercase next — equivalent to the backtracking
semantics because `[A-Z]` and `\s` are disjoint. -/

/-- Matches `\s+[A-Z]` at the head of the character list. -/
def wsThenUpper : List Char → Bool
  | [] => false
  | c :: rest =>
    pyIsSpace c &&
      match rest.dropWhile pyIsSpace with
      | [] => false
      | d :: _ => d.isUpper

/-- Regex `^\([a-z]\)\s+[A-Z]` — letter in parentheses then capitalized text. -/
def matchLetterParen : List Char → Bool
  | '(' :: c :: ')' :: rest => c.isLower && wsThenUpper rest
  | _ => false

/-- Regex `^\(\d+\)\s+[A-Z]` — number in parentheses then capitalized text. -/
def matchNumberParen : List Char → Bool
  | '(' :: rest =>
    match rest.dropWhile Char.isDigit with
    | ')' :: rest2 => (rest.takeWhile Char.isDigit).length != 0 && wsThenUpper rest2
    | _ => false
  | _ => false

/-- Character class `[ivx]`. -/
def isRomanChar (c : Char) : Bool :=
  c = 'i' || c = 'v' || c = 'x'

/-- Regex `^\([ivx]+\)\s+[A-Z]` — roman numeral in parentheses then capitalized text. -/
def matchRomanParen : List Char → Bool
  | '(' :: rest =>
    match rest.dropWhile isRomanChar with
    | ')' :: rest2 => (rest.takeWhile isRomanChar).length != 0 && wsThenUpper rest2
    | _ => false
  | _ => false

/-- Regex `^[a-z]\.\s+[A-Z]` — letter, period, then capitalized text. -/
def matchLetterPeriod : List Char → Bool
  | c :: '.' :: rest => c.isLower && wsThenUpper rest
  | _ => false

/-- Regex `^\d+\.\s+[A-Z]` — number, period, then capitalized text. -/
def matchNumberPeriod : List Char → Bool
  | l =>
    match l.dropWhile Char.isDigit with
    | '.' :: rest2 => (l.takeWhile Char.isDigit).length != 0 && wsThenUpper rest2
    | _ => false

/-- `any(re.match(pattern, text) for pattern in subheader_patterns)` — the
loop over the five patterns in `_is_subheader`. -/
def matchesSubheaderPattern (text : String) : Bool :=
  matchLetterParen text.data || matchNumberParen text.data ||
    matchRomanParen text.data || matchLetterPeriod text.data ||
    matchNumberPeriod text.data

/-! ## Confidence constants

The program's five float literals, represented exactly.  They are built
with `Rat.mk'` (numerator and denominator given directly, in lowest
terms) so that equality on them is kernel-decidable; `Rat.ofScientific`
and `/` normalize through `Nat.gcd`, which is well-founded and does not
reduce in the kernel. -/

/-- The float literal `0.8`. -/
def q080 : ℚ := ⟨4, 5, by norm_num, by norm_num⟩

/-- The float literal `0.85`. -/
def q085 : ℚ := ⟨17, 20, by norm_num, by norm_num⟩

/-- The float literal `0.9`. -/
def q090 : ℚ := ⟨9, 10, by norm_num, by norm_num⟩

/-- The float literal `0.95`. -/
def q095 : ℚ := ⟨19, 20, by norm_num, by norm_num⟩

/-- The float literal `1.0` (the `confidence` default of `SemanticElement`). -/
def q100 : ℚ := ⟨1, 1, by norm_num, by norm_num⟩

/-! ## `ElementType` and the text classifier (`parser.py` lines 13–24, 198–256) -/

/-- `ElementType` — the closed enum of semantic roles. -/
inductive ElementType where
  | DOCUMENT
  | SECTION_TITLE
  | PARAGRAPH
  | TABLE
  | TABLE_ROW
  | TABLE_CELL
  | LIST
  | LIST_ITEM
  | TEXT
  | SUPPLEMENTARY_TEXT
  | CONTAINER
deriving DecidableEq, Repr, Fintype

/-- `EnhancedSECParser._is_subheader` (parser.py 219–256).  The Python
function returns `False` on whitespace-only input and a `(type, confidence)`
tuple on every other path — including the fallthrough `(TEXT, 0.8)`.  The
tuple-or-False union is modelled as `Option`; `none` is the sole falsy
value, exactly as in Python, where every non-empty tuple is truthy. -/
def is_subheader (text : String) : Option (ElementType × ℚ) :=
  let text := pyStrip text
  if text = "" then none
  else if matchesSubheaderPattern text then some (.SECTION_TITLE, q095)
  else if pyWordCount text ≤ 10 &&
      (match text.data with
       | [] => false
       | c :: _ => c.isUpper) then some (.SECTION_TITLE, q090)
  else some (.TEXT, q080)

/-- `EnhancedSECParser._classify_text` (parser.py 198–217).  Note the
second branch: Python tests `if self._is_subheader(text):`, a truthiness
check on the returned value, and then returns the hardcoded pair
`(SECTION_TITLE, 0.9)` regardless of the tuple's contents. -/
def classify_text (text : String) : ElementType × ℚ :=
  let text := pyStrip text
  if pyStartsWith text "Item" then (.SECTION_TITLE, q095)
  else if (is_subheader text).isSome then (.SECTION_TITLE, q090)
  else if pyStartsWith text "Note" || pyStartsWith text "See accompanying" ||
      pyStartsWith text "See Note" then (.SUPPLEMENTARY_TEXT, q090)
  else if text.data.length < 50 && pyIsUpper text then (.SECTION_TITLE, q085)
  else (.TEXT, q080)

/-! ## The adapted HTML node tree

The input boundary: the node tree that BeautifulSoup hands to the parser
(tag name, attributes, ordered children; text runs are leaves).  The
children sequence is a mutually-defined forest rather than a `List` so
that all recursion over nodes is structural and kernel-reducible. -/

mutual
/-- One parsed HTML node: a `NavigableString` or a `Tag`. -/
inductive HNode where
  | text (s : String)
  | elem (tag : String) (attrs : List (String × String)) (children : HForest)
deriving DecidableEq, Repr
/-- An ordered sequence of sibling `HNode`s. -/
inductive HForest where
  | nil
  | cons (head : HNode) (tail : HForest)
deriving DecidableEq, Repr
end

/-- bs4 `element.string`: the single `NavigableString` child, looked up
through chains of single-child tags; `None` as soon as a tag has zero or
several children. -/
def nodeString : HNode → Option String
  | .text s => some s
  | .elem _ _ (.cons c .nil) => nodeString c
  | .elem _ _ _ => none

mutual
/-- All descendant text runs of a node, in document order (bs4 `.strings`). -/
def textStrings : HNode → List String
  | .text s => [s]
  | .elem _ _ ch => textStringsForest ch
def textStringsForest : HForest → List String
  | .nil => []
  | .cons n t => textStrings n ++ textStringsForest t
end

/-- bs4 `element.get_text(strip=True)`: every descendant string stripped
and concatenated (empty separator, so skipping blank pieces is a no-op). -/
def getTextStrip (n : HNode) : String :=
  String.join ((textStrings n).map pyStrip)

mutual
/-- Matching descendants of the members of a forest, in document order,
nested matches included — the recursion of bs4 `find_all`. -/
def findAllForest (tags : List String) : HForest → List HNode
  | .nil => []
  | .cons n t => findAllWithin tags n ++ findAllForest tags t
/-- A node's own match (if its tag is listed) followed by its descendants'. -/
def findAllWithin (tags : List String) : HNode → List HNode
  | .text _ => []
  | .elem tg a ch =>
    (if tags.contains tg then [.elem tg a ch] else []) ++ findAllForest tags ch
end

/-- bs4 `element.find_all(tags)`: matching descendants only, never the
element itself. -/
def find_all (tags : List String) : HNode → List HNode
  | .text _ => []
  | .elem _ _ ch => findAllForest tags ch

/-- Python `element.get(key, "")` on the attribute mapping. -/
def attrGet (attrs : List (String × String)) (key : String) : String :=
  match attrs.find? (fun kv => kv.1 = key) with
  | some kv => kv.2
  | none => ""

/-! ## `SemanticElement` (parser.py 27–46) -/

mutual
/-- `SemanticElement`: type, text, level, confidence and exclusively owned
ordered children.  `add_child` always overwrites the child's level with
`parent.level + 1` before appending, so in this functional embedding every
constructor site records the attach-time level directly. -/
inductive SemanticElement where
  | mk (element_type : ElementType) (text : String) (level : Nat)
       (confidence : ℚ) (children : SForest)
deriving DecidableEq, Repr
/-- An ordered sequence of sibling `SemanticElement`s. -/
inductive SForest where
  | nil
  | cons (head : SemanticElement) (tail : SForest)
deriving DecidableEq, Repr
end

/-- Field accessor: `element_type`. -/
def SemanticElement.element_type : SemanticElement → ElementType
  | .mk t _ _ _ _ => t

/-- Field accessor: `text`. -/
def SemanticElement.text : SemanticElement → String
  | .mk _ s _ _ _ => s

/-- Field accessor: `level`. -/
def SemanticElement.level : SemanticElement → Nat
  | .mk _ _ l _ _ => l

/-- Field accessor: `confidence`. -/
def SemanticElement.confidence : SemanticElement → ℚ
  | .mk _ _ _ c _ => c

/-- Field accessor: `children`. -/
def SemanticElement.children : SemanticElement → SForest
  | .mk _ _ _ _ ch => ch

/-- Appending forests (the successive `parent.add_child` calls). -/
def SForest.append : SForest → SForest → SForest
  | .nil, g => g
  | .cons e t, g => .cons e (t.append g)

/-- A forest from a list. -/
def SForest.ofList : List SemanticElement → SForest
  | [] => .nil
  | e :: t => .cons e (SForest.ofList t)

/-- Number of elements in a forest. -/
def SForest.length : SForest → Nat
  | .nil => 0
  | .cons _ t => 1 + t.length

/-! ## The element classifier (`_classify_element`, parser.py 169–196) -/

/-- `EnhancedSECParser._classify_element`.  The span-specific overrides
come first (bold `Item` header, underlined lettered subheader), then the
tag-based rules in source order. -/
def classify_element (tag : String) (attrs : List (String × String))
    (children : HForest) : ElementType × ℚ :=
  if tag = "span" &&
      (pyStartsWith (getTextStrip (.elem tag attrs children)) "Item" &&
        containsSub (attrGet attrs "style").data "font-weight:700".data) then
    (.SECTION_TITLE, q095)
  else if tag = "span" &&
      ((pyStartsWith (getTextStrip (.elem tag attrs children)) "(a)" ||
        pyStartsWith (getTextStrip (.elem tag attrs children)) "(b)" ||
        pyStartsWith (getTextStrip (.elem tag attrs children)) "(c)" ||
        pyStartsWith (getTextStrip (.elem tag attrs children)) "(d)") &&
        containsSub (attrGet attrs "style").data "text-decoration:underline".data) then
    (.SECTION_TITLE, q090)
  else if tag = "h1" || tag = "h2" || tag = "h3" || tag = "h4" ||
      tag = "h5" || tag = "h6" then (.SECTION_TITLE, q095)
  else if tag = "p" then (.PARAGRAPH, q090)
  else if tag = "table" then (.TABLE, q095)
  else if tag = "ul" || tag = "ol" then (.LIST, q090)
  else if tag = "li" then (.LIST_ITEM, q090)
  else (.CONTAINER, q080)

/-! ## The tree builder (`_process_element` / `_process_table`, parser.py 96–167) -/

/-- `EnhancedSECParser._process_table` (parser.py 147–167): for every
`tr` found anywhere under the table, a `TABLE_ROW` child of the table
element at confidence 0.95; for every `td`/`th` under that row, a
`TABLE_CELL` leaf carrying `cell.get_text(strip=True)`.  `add_child`
places rows at `table.level + 1` and cells at `row.level + 1`. -/
def process_table_rows (tbl : HNode) (tableLevel : Nat) : SForest :=
  SForest.ofList ((find_all ["tr"] tbl).map fun row =>
    SemanticElement.mk .TABLE_ROW "tr" (tableLevel + 1) q095
      (SForest.ofList ((find_all ["td", "th"] row).map fun cell =>
        SemanticElement.mk .TABLE_CELL (getTextStrip cell) (tableLevel + 2) q095 .nil)))

/-- The text leaf that `_process_element` appends first when
`element.string` is present and non-blank, classified by `_classify_text`. -/
def textLeaf (n : HNode) (parentLevel : Nat) : SForest :=
  match nodeString n with
  | some s =>
    if pyStrip s = "" then .nil
    else
      .cons (SemanticElement.mk (classify_text (pyStrip s)).1 (pyStrip s)
        (parentLevel + 1) (classify_text (pyStrip s)).2 .nil) .nil
  | none => .nil

mutual
/-- `EnhancedSECParser._process_element` (parser.py 103–145), phrased as
the sequence of children it appends under a parent sitting at
`parentLevel`: nothing for `script`/`style`; else an optional classified
text leaf, then — for a `table` tag — a single `TABLE` element holding the
table traversal (the generic loop is skipped via `return`), and otherwise
the recursively processed named children. -/
def process_element : HNode → Nat → SForest
  | .text _, _ => .nil
  | .elem tag attrs children, parentLevel =>
    if tag = "script" || tag = "style" then .nil
    else
      let leaf := textLeaf (.elem tag attrs children) parentLevel
      if tag = "table" then
        leaf.append (.cons (SemanticElement.mk .TABLE "table" (parentLevel + 1) q095
          (process_table_rows (.elem tag attrs children) (parentLevel + 1))) .nil)
      else
        leaf.append (process_children children parentLevel)
/-- The `for child in element.children: if child.name:` loop: every tag
child is classified by `_classify_element`, appended with `text=child.name`
at `parentLevel + 1`, and recursed into; `NavigableString` children have
`name is None` and are skipped. -/
def process_children : HForest → Nat → SForest
  | .nil, _ => .nil
  | .cons n rest, parentLevel =>
    match n with
    | .text _ => process_children rest parentLevel
    | .elem t a ch =>
      .cons (SemanticElement.mk (classify_element t a ch).1 t (parentLevel + 1)
          (classify_element t a ch).2 (process_element n (parentLevel + 1)))
        (process_children rest parentLevel)
end

/-- `EnhancedSECParser.parse_html` (parser.py 96–101): a fresh `DOCUMENT`
root (text `""`, level 0, confidence 1.0) populated by
`_process_element(soup, root)`. -/
def parse_html (soup : HNode) : SemanticElement :=
  .mk .DOCUMENT "" 0 q100 (process_element soup 0)

/-! ## The Section Resolver
(`your_sec_parser/processing_steps/section_manager.py`)

The external variant's pipeline works on a flat, ordered list of semantic
elements; the classifier steps replace elements by `TitleElement` /
`TableElement` instances, and `SectionManager.process` then threads
`current_section` through the list. -/

/-- The runtime class of a flat element after the classifier steps
(`TextElement`, `TitleElement`, `TableElement`). -/
inductive FlatKind where
  | textEl
  | titleEl
  | tableEl
deriving DecidableEq, Repr

/-- One element of the external variant's flat list: its class, its tag
text, and its mutable `section` attribute (here `sect`: `section` is a
Lean keyword), `None` until the resolver writes it. -/
structure FlatElement where
  kind : FlatKind
  text : String
  sect : Option String
deriving DecidableEq, Repr

/-- The loop body of `SectionManager.process`, with the running
`current_section` made explicit: a `TitleElement`'s text overwrites the
running section before the element's own `section` is assigned. -/
def sectionPass : Option String → List FlatElement → List FlatElement
  | _, [] => []
  | current, e :: rest =>
    let current := if e.kind = .titleEl then some e.text else current
    { e with sect := current } :: sectionPass current rest

/-- `SectionManager.process`: `current_section = None`, then one
left-to-right pass. -/
def SectionManager_process (elements : List FlatElement) : List FlatElement :=
  sectionPass none elements

/-! ## The serializer (`SemanticElement.to_dict`, parser.py 48–73) -/

/-- The Python `Enum` member name, as serialized by `to_dict`. -/
def ElementType.name : ElementType → String
  | .DOCUMENT => "DOCUMENT"
  | .SECTION_TITLE => "SECTION_TITLE"
  | .PARAGRAPH => "PARAGRAPH"
  | .TABLE => "TABLE"
  | .TABLE_ROW => "TABLE_ROW"
  | .TABLE_CELL => "TABLE_CELL"
  | .LIST => "LIST"
  | .LIST_ITEM => "LIST_ITEM"
  | .TEXT => "TEXT"
  | .SUPPLEMENTARY_TEXT => "SUPPLEMENTARY_TEXT"
  | .CONTAINER => "CONTAINER"

/-- Inverse of `ElementType.name`, used when reading serialized output back. -/
def ElementType.ofName : String → Option ElementType
  | "DOCUMENT" => some .DOCUMENT
  | "SECTION_TITLE" => some .SECTION_TITLE
  | "PARAGRAPH" => some .PARAGRAPH
  | "TABLE" => some .TABLE
  | "TABLE_ROW" => some .TABLE_ROW
  | "TABLE_CELL" => some .TABLE_CELL
  | "LIST" => some .LIST
  | "LIST_ITEM" => some .LIST_ITEM
  | "TEXT" => some .TEXT
  | "SUPPLEMENTARY_TEXT" => some .SUPPLEMENTARY_TEXT
  | "CONTAINER" => some .CONTAINER
  | _ => none

mutual
/-- A JSON value as `json.dump`/`json.load` handle it.  Python's `json`
keeps `int` and `float` numbers apart (`2` versus `0.95`), so integer
number literals get their own constructor; the only integers this
serializer emits are the non-negative `level` fields. -/
inductive Json where
  | str (s : String)
  | intNum (n : Nat)
  | num (q : ℚ)
  | arr (elems : JArr)
  | obj (fields : JObj)
deriving DecidableEq, Repr
/-- An ordered JSON array. -/
inductive JArr where
  | nil
  | cons (head : Json) (tail : JArr)
deriving DecidableEq, Repr
/-- An ordered JSON object (Python dicts preserve insertion order). -/
inductive JObj where
  | nil
  | cons (key : String) (val : Json) (rest : JObj)
deriving DecidableEq, Repr
end

/-- The keys of a JSON object, in order. -/
def JObj.keys : JObj → List String
  | .nil => []
  | .cons k _ rest => k :: rest.keys

mutual
/-- `SemanticElement.to_dict(for_llm)` (parser.py 48–73).  Verbose mode
(`for_llm=False`) emits `type`, `content`, `level`, `confidence`, plus a
`children` array only when `self.children` is non-empty (Python's truthy
test on the list); compact mode emits `t`, `c`, `l` and `ch`, dropping
confidence. -/
def to_dict (for_llm : Bool) : SemanticElement → Json
  | .mk t s l c ch =>
    if for_llm then
      .obj (.cons "t" (.str t.name) (.cons "c" (.str s) (.cons "l" (.intNum l)
        (match ch with
         | .nil => .nil
         | _ => .cons "ch" (.arr (to_dict_forest for_llm ch)) .nil))))
    else
      .obj (.cons "type" (.str t.name) (.cons "content" (.str s)
        (.cons "level" (.intNum l) (.cons "confidence" (.num c)
          (match ch with
           | .nil => .nil
           | _ => .cons "children" (.arr (to_dict_forest for_llm ch)) .nil)))))
/-- The `[child.to_dict(...) for child in self.children]` comprehension. -/
def to_dict_forest (for_llm : Bool) : SForest → JArr
  | .nil => .nil
  | .cons e t => .cons (to_dict for_llm e) (to_dict_forest for_llm t)
end

mutual
/-- Reader for the verbose JSON shape: the inverse projection used to
state the round-trip property (`json.load` followed by field extraction).
It accepts exactly the records `to_dict false` produces. -/
def from_dict : Json → Option SemanticElement
  | .obj (.cons "type" (.str ty) (.cons "content" (.str content)
      (.cons "level" (.intNum lvl) (.cons "confidence" (.num conf) rest)))) =>
    match ElementType.ofName ty with
    | none => none
    | some t =>
      match rest with
      | .nil => some (.mk t content lvl conf .nil)
      | .cons "children" (.arr xs) .nil =>
        match from_dict_arr xs with
        | some f => some (.mk t content lvl conf f)
        | none => none
      | _ => none
  | _ => none
/-- Reader for an array of verbose records. -/
def from_dict_arr : JArr → Option SForest
  | .nil => some .nil
  | .cons j t =>
    match from_dict j with
    | none => none
    | some e =>
      match from_dict_arr t with
      | none => none
      | some f => some (.cons e f)
end

/-! ## Invariant checkers over built trees -/

mutual
/-- Level discipline: every child sits exactly one level below its parent,
recursively (spec §3 / §8.1). -/
def levelsOk : SemanticElement → Bool
  | .mk _ _ lvl _ ch => levelsOkForest lvl ch
/-- `levelsOk` for all members of a forest under a parent at `lvl`. -/
def levelsOkForest : Nat → SForest → Bool
  | _, .nil => true
  | lvl, .cons e t => (e.level == lvl + 1) && levelsOk e && levelsOkForest lvl t
end

/-- Every member of the forest has its type in `allowed`. -/
def childTypesAll (allowed : List ElementType) : SForest → Bool
  | .nil => true
  | .cons e t => allowed.contains e.element_type && childTypesAll allowed t

mutual
/-- The table-shape invariant exactly as claimed (spec §8.2): every child
of a `TABLE` node is a `TABLE_ROW`, every child of a `TABLE_ROW` is a
`TABLE_CELL`, recursively everywhere. -/
def tablesClaimOk : SemanticElement → Bool
  | .mk ty _ _ _ ch =>
    (if ty = .TABLE then childTypesAll [.TABLE_ROW] ch else true) &&
      (if ty = .TABLE_ROW then childTypesAll [.TABLE_CELL] ch else true) &&
      tablesClaimOkForest ch
/-- `tablesClaimOk` over a forest. -/
def tablesClaimOkForest : SForest → Bool
  | .nil => true
  | .cons e t => tablesClaimOk e && tablesClaimOkForest t
end

mutual
/-- The table shape the builder actually guarantees: `TABLE_ROW` children
are exclusively `TABLE_CELL`, while a `TABLE` node's children may be
`TABLE_ROW`s (inner table), a nested `TABLE` (outer node from the generic
child loop), or the `SECTION_TITLE` text leaf that `_process_element`
prepends when the table has a `.string`. -/
def tablesAmendedOk : SemanticElement → Bool
  | .mk ty _ _ _ ch =>
    (if ty = .TABLE then childTypesAll [.TABLE_ROW, .TABLE, .SECTION_TITLE] ch else true) &&
      (if ty = .TABLE_ROW then childTypesAll [.TABLE_CELL] ch else true) &&
      tablesAmendedOkForest ch
/-- `tablesAmendedOk` over a forest. -/
def tablesAmendedOkForest : SForest → Bool
  | .nil => true
  | .cons e t => tablesAmendedOk e && tablesAmendedOkForest t
end

mutual
/-- Does some node of the tree carry exactly this text? -/
def hasNodeText (s : String) : SemanticElement → Bool
  | .mk _ t _ _ ch => t == s || hasNodeTextForest s ch
/-- `hasNodeText` over a forest. -/
def hasNodeTextForest (s : String) : SForest → Bool
  | .nil => false
  | .cons e t => hasNodeText s e || hasNodeTextForest s t
end

/-- First member of a forest, if any. -/
def SForest.head? : SForest → Option SemanticElement
  | .nil => none
  | .cons e _ => some e

/-! ## Concrete documents used by the claims -/

/-- `<h1>Item 1. Business</h1>` as parsed. -/
def c1H1 : HNode := .elem "h1" [] (.cons (.text "Item 1. Business") .nil)

/-- `<p>We operate...</p>` as parsed. -/
def c1P : HNode := .elem "p" [] (.cons (.text "We operate...") .nil)

/-- The two-row table of the example document as parsed (html5lib inserts
the `tbody` wrapper required by the HTML5 tree-construction algorithm). -/
def c1Table : HNode := .elem "table" [] (.cons (.elem "tbody" []
  (.cons (.elem "tr" [] (.cons (.elem "th" [] (.cons (.text "Year") .nil))
    (.cons (.elem "th" [] (.cons (.text "Revenue") .nil)) .nil)))
  (.cons (.elem "tr" [] (.cons (.elem "td" [] (.cons (.text "2023") .nil))
    (.cons (.elem "td" [] (.cons (.text "100") .nil)) .nil))) .nil))) .nil)

/-- The example input of spec §8.6 as `BeautifulSoup(…, "html5lib")`
produces it: the html5lib tree builder always wraps the fragment in
`html`/`head`/`body`, and the soup object itself is the `[document]`
root handed to `_process_element`. -/
def c1Soup : HNode := .elem "[document]" []
  (.cons (.elem "html" [] (.cons (.elem "head" [] .nil)
    (.cons (.elem "body" [] (.cons c1H1 (.cons c1P (.cons c1Table .nil)))) .nil))) .nil)

/-- First table row of the tree the builder actually produces. -/
def c1Row1 : SemanticElement := .mk .TABLE_ROW "tr" 5 q095
  (.cons (.mk .TABLE_CELL "Year" 6 q095 .nil)
    (.cons (.mk .TABLE_CELL "Revenue" 6 q095 .nil) .nil))

/-- Second table row of the tree the builder actually produces. -/
def c1Row2 : SemanticElement := .mk .TABLE_ROW "tr" 5 q095
  (.cons (.mk .TABLE_CELL "2023" 6 q095 .nil)
    (.cons (.mk .TABLE_CELL "100" 6 q095 .nil) .nil))

/-- The inner `TABLE` node created by `_process_element`'s table branch. -/
def c1InnerTable : SemanticElement := .mk .TABLE "table" 4 q095
  (.cons c1Row1 (.cons c1Row2 .nil))

/-- The outer `TABLE` node created for the `table` tag by the generic
child loop, which then recurses and appends the inner `TABLE`. -/
def c1OuterTable : SemanticElement := .mk .TABLE "table" 3 q095
  (.cons c1InnerTable .nil)

/-- The `h1` node and its text leaf (`classify_text` sees the `Item`
marker, 0.95). -/
def c1H1Sem : SemanticElement := .mk .SECTION_TITLE "h1" 3 q095
  (.cons (.mk .SECTION_TITLE "Item 1. Business" 4 q095 .nil) .nil)

/-- The `p` node and its text leaf — which `classify_text` classifies as
`SECTION_TITLE` 0.9, because `_is_subheader` returns a truthy tuple for
the short capitalized run `"We operate..."`. -/
def c1PSem : SemanticElement := .mk .PARAGRAPH "p" 3 q090
  (.cons (.mk .SECTION_TITLE "We operate..." 4 q090 .nil) .nil)

/-- The `body` container of the actual output tree. -/
def c1BodySem : SemanticElement := .mk .CONTAINER "body" 2 q080
  (.cons c1H1Sem (.cons c1PSem (.cons c1OuterTable .nil)))

/-- The tree `parse_html` actually produces for the spec §8.6 document. -/
def c1Actual : SemanticElement := .mk .DOCUMENT "" 0 q100
  (.cons (.mk .CONTAINER "html" 1 q080
    (.cons (.mk .CONTAINER "head" 2 q080 .nil) (.cons c1BodySem .nil))) .nil)

/-- A document whose body holds a `script` element (with payload text)
next to a paragraph — the C5 test input. -/
def scriptSoup : HNode := .elem "[document]" []
  (.cons (.elem "body" []
    (.cons (.elem "script" [] (.cons (.text "var a = 1;") .nil))
      (.cons (.elem "p" [] (.cons (.text "Hello") .nil)) .nil))) .nil)

/-- The tree `parse_html` produces for `scriptSoup`: the `script` element
itself appears, classified `CONTAINER` 0.8 by `_classify_element`, but
childless — only its subtree is suppressed. -/
def scriptActual : SemanticElement := .mk .DOCUMENT "" 0 q100
  (.cons (.mk .CONTAINER "body" 1 q080
    (.cons (.mk .CONTAINER "script" 2 q080 .nil)
      (.cons (.mk .PARAGRAPH "p" 2 q090
        (.cons (.mk .SECTION_TITLE "Hello" 3 q090 .nil) .nil)) .nil))) .nil)

/-- A single-cell table document — the C8 test input.  The chain
`table → tr → td → "x"` is a single-child chain, so bs4 gives the table
a `.string` and the builder prepends a text leaf under the outer `TABLE`. -/
def tableSoup : HNode := .elem "[document]" []
  (.cons (.elem "table" [] (.cons (.elem "tr" []
    (.cons (.elem "td" [] (.cons (.text "x") .nil)) .nil)) .nil)) .nil)

/-- `n`-fold nested `div` elements (pathologically nested input for C6). -/
def nestedDiv : Nat → HNode
  | 0 => .elem "div" [] .nil
  | n + 1 => .elem "div" [] (.cons (nestedDiv n) .nil)

/-- The semantic chain that the builder maps `nestedDiv n` to: `n`
nested `CONTAINER "div"` nodes, one per input level. -/
def semChain : Nat → Nat → SForest
  | 0, _ => .nil
  | n + 1, lvl => .cons (.mk .CONTAINER "div" (lvl + 1) q080 (semChain n (lvl + 1))) .nil

mutual
/-- Height of a semantic tree (a leaf has height 1). -/
def semDepth : SemanticElement → Nat
  | .mk _ _ _ _ ch => 1 + semDepthForest ch
/-- Height of a forest (an empty forest has height 0). -/
def semDepthForest : SForest → Nat
  | .nil => 0
  | .cons e t => max (semDepth e) (semDepthForest t)
end

/-- The key list of a JSON value when it is an object (and `[]` otherwise). -/
def objKeys : Json → List String
  | .obj fs => fs.keys
  | _ => []

/-! # Theorems -/

/-! ## The confidence constants are the float literals they model -/

theorem q080_eq : q080 = 0.8 := by
  rw [q080, Rat.mk'_eq_divInt, Rat.divInt_eq_div]; norm_num

theorem q085_eq : q085 = 0.85 := by
  rw [q085, Rat.mk'_eq_divInt, Rat.divInt_eq_div]; norm_num

theorem q090_eq : q090 = 0.9 := by
  rw [q090, Rat.mk'_eq_divInt, Rat.divInt_eq_div]; norm_num

theorem q095_eq : q095 = 0.95 := by
  rw [q095, Rat.mk'_eq_divInt, Rat.divInt_eq_div]; norm_num

theorem q100_eq : q100 = 1 := by
  rw [q100, Rat.mk'_eq_divInt, Rat.divInt_eq_div]; norm_num

/-! ## `str.strip()` is idempotent -/

theorem head_dropWhile_false (p : Char → Bool) :
    ∀ (l : List Char) (c : Char), (l.dropWhile p).head? = some c → p c = false := by
  intro l
  induction l with
  | nil => intro c h; simp [List.dropWhile] at h
  | cons a t ih =>
    intro c h
    rw [List.dropWhile_cons] at h
    by_cases hp : p a
    · exact ih c (by simpa [hp] using h)
    · simp only [hp, if_false] at h
      simp only [List.head?] at h
      cases h
      simpa using hp

theorem dropWhile_eq_self_of_head (p : Char → Bool) (l : List Char)
    (h : ∀ c, l.head? = some c → p c = false) : l.dropWhile p = l := by
  cases l with
  | nil => rfl
  | cons a t =>
    have : p a = false := h a rfl
    rw [List.dropWhile_cons, this]
    simp

theorem getLast_dropWhile_of_ne_nil (p : Char → Bool) :
    ∀ l : List Char, l.dropWhile p ≠ [] → (l.dropWhile p).getLast? = l.getLast? := by
  intro l
  induction l with
  | nil => intro h; simp [List.dropWhile] at h
  | cons a t ih =>
    intro h
    rw [List.dropWhile_cons] at h ⊢
    by_cases hp : p a
    · simp only [hp, if_true] at h ⊢
      have ht : t ≠ [] := by
        intro he; rw [he] at h; simp [List.dropWhile] at h
      rw [ih h]
      cases t with
      | nil => exact absurd rfl ht
      | cons b u => simp [List.getLast?_cons_cons]
    · simp [hp]

theorem stripList_head (l : List Char) :
    ∀ c, (stripList l).head? = some c → pyIsSpace c = false := by
  intro c h
  by_cases hu : ((l.dropWhile pyIsSpace).reverse.dropWhile pyIsSpace) = []
  · rw [stripList, hu] at h; simp at h
  · rw [stripList, List.head?_reverse,
      getLast_dropWhile_of_ne_nil pyIsSpace _ hu, List.getLast?_reverse] at h
    exact head_dropWhile_false pyIsSpace _ c h

theorem stripList_getLast (l : List Char) :
    ∀ c, (stripList l).getLast? = some c → pyIsSpace c = false := by
  intro c h
  rw [stripList, List.getLast?_reverse] at h
  exact head_dropWhile_false pyIsSpace _ c h

theorem stripList_idem (l : List Char) : stripList (stripList l) = stripList l := by
  have h1 : (stripList l).dropWhile pyIsSpace = stripList l :=
    dropWhile_eq_self_of_head pyIsSpace _ (stripList_head l)
  have h2 : (stripList l).reverse.dropWhile pyIsSpace = (stripList l).reverse := by
    refine dropWhile_eq_self_of_head pyIsSpace _ ?_
    intro c hc
    rw [List.head?_reverse] at hc
    exact stripList_getLast l c hc
  rw [stripList, h1, h2, List.reverse_reverse]

theorem pyStrip_idem (s : String) : pyStrip (pyStrip s) = pyStrip s := by
  show (⟨stripList (String.data ⟨stripList s.data⟩)⟩ : String) = ⟨stripList s.data⟩
  rw [show String.data ⟨stripList s.data⟩ = stripList s.data from rfl, stripList_idem]

/-! ## What `_classify_text` really returns -/

theorem is_subheader_isSome (s : String) (h : pyStrip s = s) (h2 : s ≠ "") :
    (is_subheader s).isSome = true := by
  unfold is_subheader
  rw [h]
  simp only [if_neg h2]
  split
  · rfl
  · split <;> rfl

/-- The net behaviour of `_classify_text` on already-stripped non-empty
text: the `Item` branch fires at 0.95, and otherwise the truthiness test
on `_is_subheader`'s tuple fires at the hardcoded 0.9 — the
supplementary-text, short-uppercase (0.85) and fallback (0.8) branches
are unreachable. -/
theorem classify_text_spec (s : String) (h : pyStrip s = s) (h2 : s ≠ "") :
    classify_text s = (.SECTION_TITLE, if pyStartsWith s "Item" then q095 else q090) := by
  unfold classify_text
  rw [h]
  by_cases hI : pyStartsWith s "Item"
  · simp [hI]
  · simp [hI, is_subheader_isSome s h h2]

/-- C2: the claim says a short fully-uppercase run with no `Item` marker
and no structural pattern — such as `"NOTES TO FINANCIAL STATEMENTS"` —
classifies `SectionTitle` at 0.85.  Evaluating the code at that input:
every premise of the claim holds (29 characters, fully uppercase, no
`Item` prefix, no structural subheader pattern), yet `_classify_text`
returns confidence 0.9, because `_is_subheader` returned the tuple
`(SECTION_TITLE, 0.9)` and any tuple is truthy, so the 0.85 branch is
dead code. -/
theorem c2_uppercase_run_gets_090_not_085 :
    classify_text "NOTES TO FINANCIAL STATEMENTS" = (.SECTION_TITLE, 0.9) ∧
    (classify_text "NOTES TO FINANCIAL STATEMENTS").2 ≠ 0.85 ∧
    pyIsUpper "NOTES TO FINANCIAL STATEMENTS" = true ∧
    "NOTES TO FINANCIAL STATEMENTS".data.length < 50 ∧
    pyStartsWith "NOTES TO FINANCIAL STATEMENTS" "Item" = false ∧
    matchesSubheaderPattern "NOTES TO FINANCIAL STATEMENTS" = false := by
  rw [← q090_eq, ← q085_eq]
  refine ⟨by decide, by decide, by decide, by decide, by decide, by decide⟩

/-- C3: the claim says a structural-subheader match such as
`"(a) Dismissal of auditor"` classifies `SectionTitle` at 0.95.
Evaluating the code at that input: `_is_subheader` does match the
lettered-parenthetical pattern and returns `(SECTION_TITLE, 0.95)`, but
`_classify_text` only truthiness-tests that tuple and returns the
hardcoded `(SECTION_TITLE, 0.9)`, discarding the 0.95. -/
theorem c3_pattern_match_gets_090_not_095 :
    is_subheader "(a) Dismissal of auditor" = some (.SECTION_TITLE, 0.95) ∧
    matchLetterParen "(a) Dismissal of auditor".data = true ∧
    classify_text "(a) Dismissal of auditor" = (.SECTION_TITLE, 0.9) ∧
    (classify_text "(a) Dismissal of auditor").2 ≠ 0.95 := by
  rw [← q090_eq, ← q095_eq]
  refine ⟨by decide, by decide, by decide, by decide⟩

/-- C4: for every non-empty trimmed text run, `_classify_text` returns
`SECTION_TITLE` — at 0.95 when the run starts with `Item` and at 0.9 in
every other case — and consequently never returns `SUPPLEMENTARY_TEXT`,
never `TEXT`, and never confidence 0.85 or 0.8, because `_is_subheader`
returns an always-truthy tuple for every non-empty input. -/
theorem c4_classify_text_collapses (s : String)
    (htrim : pyStrip s = s) (hne : s ≠ "") :
    classify_text s =
      (.SECTION_TITLE, if pyStartsWith s "Item" then (0.95 : ℚ) else 0.9) ∧
    (classify_text s).1 = .SECTION_TITLE ∧
    (classify_text s).1 ≠ .SUPPLEMENTARY_TEXT ∧
    (classify_text s).1 ≠ .TEXT ∧
    (classify_text s).2 ≠ 0.85 ∧
    (classify_text s).2 ≠ 0.8 := by
  have hq : classify_text s =
      (.SECTION_TITLE, if pyStartsWith s "Item" then (0.95 : ℚ) else 0.9) := by
    rw [classify_text_spec s htrim hne, q095_eq, q090_eq]
  have h1 : (classify_text s).1 = .SECTION_TITLE := by rw [hq]
  have h2 : (classify_text s).2 = if pyStartsWith s "Item" then (0.95 : ℚ) else 0.9 := by
    rw [hq]
  refine ⟨hq, h1, ?_, ?_, ?_, ?_⟩
  · rw [h1]; decide
  · rw [h1]; decide
  · rw [h2]; split <;> norm_num
  · rw [h2]; split <;> norm_num

/-- Witness for C4 at the concrete trimmed non-empty input `"HELLO"`. -/
theorem c4_classify_text_collapses_witness :
    classify_text "HELLO" =
      (.SECTION_TITLE, if pyStartsWith "HELLO" "Item" then (0.95 : ℚ) else 0.9) :=
  (c4_classify_text_collapses "HELLO" (by decide) (by decide)).1

/-! ## Accessor computation rules -/

@[simp] theorem element_type_mk (t : ElementType) (s : String) (l : Nat) (c : ℚ)
    (ch : SForest) : (SemanticElement.mk t s l c ch).element_type = t := rfl

@[simp] theorem text_mk (t : ElementType) (s : String) (l : Nat) (c : ℚ)
    (ch : SForest) : (SemanticElement.mk t s l c ch).text = s := rfl

@[simp] theorem level_mk (t : ElementType) (s : String) (l : Nat) (c : ℚ)
    (ch : SForest) : (SemanticElement.mk t s l c ch).level = l := rfl

@[simp] theorem confidence_mk (t : ElementType) (s : String) (l : Nat) (c : ℚ)
    (ch : SForest) : (SemanticElement.mk t s l c ch).confidence = c := rfl

@[simp] theorem children_mk (t : ElementType) (s : String) (l : Nat) (c : ℚ)
    (ch : SForest) : (SemanticElement.mk t s l c ch).children = ch := rfl

/-! ## Forest lemmas -/

theorem levelsOkForest_append (lvl : Nat) : (f g : SForest) →
    levelsOkForest lvl (f.append g) = (levelsOkForest lvl f && levelsOkForest lvl g)
  | .nil, g => by simp [SForest.append, levelsOkForest]
  | .cons e t, g => by
    simp [SForest.append, levelsOkForest, levelsOkForest_append lvl t g, Bool.and_assoc]

theorem childTypesAll_append (allowed : List ElementType) : (f g : SForest) →
    childTypesAll allowed (f.append g) =
      (childTypesAll allowed f && childTypesAll allowed g)
  | .nil, g => by simp [SForest.append, childTypesAll]
  | .cons e t, g => by
    simp [SForest.append, childTypesAll, childTypesAll_append allowed t g, Bool.and_assoc]

theorem tablesAmendedOkForest_append : (f g : SForest) →
    tablesAmendedOkForest (f.append g) =
      (tablesAmendedOkForest f && tablesAmendedOkForest g)
  | .nil, g => by simp [SForest.append, tablesAmendedOkForest]
  | .cons e t, g => by
    simp [SForest.append, tablesAmendedOkForest, tablesAmendedOkForest_append t g,
      Bool.and_assoc]

theorem childTypesAll_sub (l1 l2 : List ElementType)
    (hsub : ∀ t, l1.contains t = true → l2.contains t = true) :
    (f : SForest) → childTypesAll l1 f = true → childTypesAll l2 f = true
  | .nil, _ => rfl
  | .cons e t, h => by
    simp only [childTypesAll, Bool.and_eq_true] at h ⊢
    exact ⟨hsub _ h.1, childTypesAll_sub l1 l2 hsub t h.2⟩

/-! ## Level discipline of the builder (claim C7 machinery) -/

theorem cells_levels (k : Nat) : (cells : List HNode) →
    levelsOkForest k (SForest.ofList (cells.map fun cell =>
      SemanticElement.mk .TABLE_CELL (getTextStrip cell) (k + 1) q095 .nil)) = true
  | [] => rfl
  | c :: t => by
    simp [SForest.ofList, levelsOkForest, levelsOk, cells_levels k t]

theorem rows_levels (lvl : Nat) : (rows : List HNode) →
    levelsOkForest lvl (SForest.ofList (rows.map fun row =>
      SemanticElement.mk .TABLE_ROW "tr" (lvl + 1) q095
        (SForest.ofList ((find_all ["td", "th"] row).map fun cell =>
          SemanticElement.mk .TABLE_CELL (getTextStrip cell) (lvl + 2) q095 .nil)))) = true
  | [] => rfl
  | r :: t => by
    simp only [List.map_cons, SForest.ofList, levelsOkForest, levelsOk,
      Bool.and_eq_true, level_mk, beq_self_eq_true, true_and]
    exact ⟨cells_levels (lvl + 1) (find_all ["td", "th"] r), rows_levels lvl t⟩

theorem process_table_rows_levels (tbl : HNode) (lvl : Nat) :
    levelsOkForest lvl (process_table_rows tbl lvl) = true := by
  rw [process_table_rows]
  exact rows_levels lvl (find_all ["tr"] tbl)

theorem textLeaf_levels (n : HNode) (lvl : Nat) :
    levelsOkForest lvl (textLeaf n lvl) = true := by
  rw [textLeaf]
  split
  · split
    · rfl
    · simp [levelsOkForest, levelsOk]
  · rfl

mutual
theorem process_element_levels : (n : HNode) → (lvl : Nat) →
    levelsOkForest lvl (process_element n lvl) = true
  | .text _, _ => rfl
  | .elem tag attrs children, lvl => by
    rw [process_element]
    split
    · rfl
    · split
      · rw [levelsOkForest_append]
        simp only [textLeaf_levels, levelsOkForest, levelsOk, level_mk,
          Bool.and_eq_true, beq_self_eq_true, true_and, Bool.true_and]
        exact ⟨process_table_rows_levels _ (lvl + 1), trivial⟩
      · rw [levelsOkForest_append, textLeaf_levels,
          process_children_levels children lvl]
        rfl
theorem process_children_levels : (f : HForest) → (lvl : Nat) →
    levelsOkForest lvl (process_children f lvl) = true
  | .nil, _ => rfl
  | .cons n rest, lvl => by
    cases n with
    | text s =>
      rw [show process_children (.cons (.text s) rest) lvl
          = process_children rest lvl from by rw [process_children]]
      exact process_children_levels rest lvl
    | elem t a ch =>
      rw [process_children]
      simp only [levelsOkForest, levelsOk, level_mk, Bool.and_eq_true,
        beq_self_eq_true, true_and]
      exact ⟨process_element_levels (.elem t a ch) (lvl + 1),
        process_children_levels rest lvl⟩
end

/-- C7: for every input node tree, the built semantic tree has a
`DOCUMENT` root at level 0, and every child in the whole tree sits
exactly one level below its parent — `add_child` recomputes the level at
attach time. -/
theorem c7_level_invariant (soup : HNode) :
    (parse_html soup).element_type = .DOCUMENT ∧
    (parse_html soup).level = 0 ∧
    levelsOk (parse_html soup) = true := by
  refine ⟨rfl, rfl, ?_⟩
  show levelsOkForest 0 (process_element soup 0) = true
  exact process_element_levels soup 0

/-! ## Where each element type can come from (claim C8 machinery) -/

theorem classify_element_table (t : String) (a : List (String × String)) (ch : HForest)
    (h : (classify_element t a ch).1 = .TABLE) : t = "table" := by
  unfold classify_element at h
  split at h
  · simp at h
  · split at h
    · simp at h
    · split at h
      · simp at h
      · split at h
        · simp at h
        · split at h
          · assumption
          · split at h
            · simp at h
            · split at h
              · simp at h
              · simp at h

theorem classify_element_ne_row (t : String) (a : List (String × String)) (ch : HForest) :
    (classify_element t a ch).1 ≠ .TABLE_ROW := by
  intro h
  unfold classify_element at h
  split at h
  · simp at h
  · split at h
    · simp at h
    · split at h
      · simp at h
      · split at h
        · simp at h
        · split at h
          · simp at h
          · split at h
            · simp at h
            · split at h
              · simp at h
              · simp at h

theorem textLeaf_types (n : HNode) (lvl : Nat) :
    childTypesAll [.TABLE_ROW, .TABLE, .SECTION_TITLE] (textLeaf n lvl) = true := by
  rw [textLeaf]
  split
  · split
    · rfl
    · rename_i s _ h
      have hct := classify_text_spec (pyStrip s) (pyStrip_idem s) h
      simp [childTypesAll, hct]
  · rfl

theorem textLeaf_amendedOk (n : HNode) (lvl : Nat) :
    tablesAmendedOkForest (textLeaf n lvl) = true := by
  rw [textLeaf]
  split
  · split
    · rfl
    · rename_i s _ h
      have hct := classify_text_spec (pyStrip s) (pyStrip_idem s) h
      simp [tablesAmendedOkForest, tablesAmendedOk, childTypesAll, hct]
  · rfl

theorem cells_types (k : Nat) : (cells : List HNode) →
    childTypesAll [.TABLE_CELL] (SForest.ofList (cells.map fun cell =>
      SemanticElement.mk .TABLE_CELL (getTextStrip cell) k q095 .nil)) = true
  | [] => rfl
  | c :: t => by simp [SForest.ofList, childTypesAll, cells_types k t]

theorem cells_amendedOk (k : Nat) : (cells : List HNode) →
    tablesAmendedOkForest (SForest.ofList (cells.map fun cell =>
      SemanticElement.mk .TABLE_CELL (getTextStrip cell) k q095 .nil)) = true
  | [] => rfl
  | c :: t => by
    simp [SForest.ofList, tablesAmendedOkForest, tablesAmendedOk, cells_amendedOk k t]

theorem rows_types (lvl : Nat) : (rows : List HNode) →
    childTypesAll [.TABLE_ROW] (SForest.ofList (rows.map fun row =>
      SemanticElement.mk .TABLE_ROW "tr" (lvl + 1) q095
        (SForest.ofList ((find_all ["td", "th"] row).map fun cell =>
          SemanticElement.mk .TABLE_CELL (getTextStrip cell) (lvl + 2) q095 .nil)))) = true
  | [] => rfl
  | r :: t => by simp [SForest.ofList, childTypesAll, rows_types lvl t]

theorem rows_amendedOk (lvl : Nat) : (rows : List HNode) →
    tablesAmendedOkForest (SForest.ofList (rows.map fun row =>
      SemanticElement.mk .TABLE_ROW "tr" (lvl + 1) q095
        (SForest.ofList ((find_all ["td", "th"] row).map fun cell =>
          SemanticElement.mk .TABLE_CELL (getTextStrip cell) (lvl + 2) q095 .nil)))) = true
  | [] => rfl
  | r :: t => by
    simp only [List.map_cons, SForest.ofList, tablesAmendedOkForest, tablesAmendedOk,
      element_type_mk, Bool.and_eq_true]
    refine ⟨⟨?_, ?_⟩, rows_amendedOk lvl t⟩
    · simp [cells_types (lvl + 2) (find_all ["td", "th"] r)]
    · exact cells_amendedOk (lvl + 2) (find_all ["td", "th"] r)

theorem process_table_rows_types (tbl : HNode) (lvl : Nat) :
    childTypesAll [.TABLE_ROW] (process_table_rows tbl lvl) = true := by
  rw [process_table_rows]
  exact rows_types lvl (find_all ["tr"] tbl)

theorem process_table_rows_amendedOk (tbl : HNode) (lvl : Nat) :
    tablesAmendedOkForest (process_table_rows tbl lvl) = true := by
  rw [process_table_rows]
  exact rows_amendedOk lvl (find_all ["tr"] tbl)

theorem process_element_table_eq (a : List (String × String)) (ch : HForest) (lvl : Nat) :
    process_element (.elem "table" a ch) lvl =
      (textLeaf (.elem "table" a ch) lvl).append
        (.cons (.mk .TABLE "table" (lvl + 1) q095
          (process_table_rows (.elem "table" a ch) (lvl + 1))) .nil) := rfl

theorem tablesUnderTableElem (a : List (String × String)) (ch : HForest) (lvl : Nat) :
    childTypesAll [.TABLE_ROW, .TABLE, .SECTION_TITLE]
      (process_element (.elem "table" a ch) lvl) = true := by
  rw [process_element_table_eq, childTypesAll_append, textLeaf_types, Bool.true_and,
    childTypesAll, childTypesAll]
  simp

mutual
theorem process_element_tables : (n : HNode) → (lvl : Nat) →
    tablesAmendedOkForest (process_element n lvl) = true
  | .text _, _ => rfl
  | .elem tag attrs children, lvl => by
    rw [process_element]
    split
    · rfl
    · split
      · rw [tablesAmendedOkForest_append, textLeaf_amendedOk, Bool.true_and,
          tablesAmendedOkForest, tablesAmendedOkForest, Bool.and_true,
          tablesAmendedOk]
        rw [if_pos rfl, if_neg (by decide : ElementType.TABLE ≠ .TABLE_ROW)]
        simp [process_table_rows_amendedOk _ (lvl + 1),
          childTypesAll_sub [.TABLE_ROW] [.TABLE_ROW, .TABLE, .SECTION_TITLE]
            (by decide) _ (process_table_rows_types _ (lvl + 1))]
      · rw [tablesAmendedOkForest_append, textLeaf_amendedOk,
          process_children_tables children lvl]
        rfl
theorem process_children_tables : (f : HForest) → (lvl : Nat) →
    tablesAmendedOkForest (process_children f lvl) = true
  | .nil, _ => rfl
  | .cons n rest, lvl => by
    cases n with
    | text s =>
      rw [show process_children (.cons (.text s) rest) lvl
          = process_children rest lvl from by rw [process_children]]
      exact process_children_tables rest lvl
    | elem t a ch =>
      rw [process_children, tablesAmendedOkForest,
        process_children_tables rest lvl, Bool.and_true, tablesAmendedOk]
      by_cases hT : (classify_element t a ch).1 = .TABLE
      · have ht : t = "table" := classify_element_table t a ch hT
        subst ht
        rw [if_pos hT, if_neg (classify_element_ne_row "table" a ch),
          tablesUnderTableElem a ch (lvl + 1), Bool.true_and,
          process_element_tables (.elem "table" a ch) (lvl + 1)]
        rfl
      · rw [if_neg hT, if_neg (classify_element_ne_row t a ch),
          process_element_tables (.elem t a ch) (lvl + 1)]
        rfl
end

/-- C8 counterexample: for the single-cell table document `tableSoup`
(`<table><tr><td>x</td></tr></table>`), the claimed invariant — `TABLE`
children exclusively `TABLE_ROW` and `TABLE_ROW` children exclusively
`TABLE_CELL` — is violated: the outer `TABLE` node created by the generic
child loop holds a `SECTION_TITLE` text leaf (bs4 gives the table a
`.string` through the single-child chain) and a nested `TABLE` node. -/
theorem c8_counterexample :
    tablesClaimOk (parse_html tableSoup) = false ∧
    childTypesAll [.TABLE_ROW] (parse_html tableSoup).children = false := by
  constructor
  · decide
  · decide

/-- C8 amended: in every built tree, each `TABLE_ROW`'s children are
exclusively `TABLE_CELL`; each `TABLE` node's children are drawn from
`TABLE_ROW` (inner table node), `TABLE` (the nested node the generic loop
appends before recursing) and `SECTION_TITLE` (the table's own text leaf). -/
theorem c8_table_shape_amended (soup : HNode) :
    tablesAmendedOk (parse_html soup) = true := by
  show tablesAmendedOk (.mk .DOCUMENT "" 0 q100 (process_element soup 0)) = true
  rw [tablesAmendedOk, if_neg (by decide : ElementType.DOCUMENT ≠ .TABLE),
    if_neg (by decide : ElementType.DOCUMENT ≠ .TABLE_ROW),
    process_element_tables soup 0]
  rfl

/-! ## The builder has no depth bound (claim C6 machinery) -/

theorem textLeaf_none (n : HNode) (lvl : Nat) (h : nodeString n = none) :
    textLeaf n lvl = .nil := by
  rw [textLeaf, h]

theorem nodeString_nestedDiv : (n : Nat) → nodeString (nestedDiv n) = none
  | 0 => rfl
  | n + 1 => nodeString_nestedDiv n

theorem process_element_nestedDiv : (n lvl : Nat) →
    process_element (nestedDiv n) lvl = semChain n lvl
  | 0, lvl => rfl
  | n + 1, lvl => by
    obtain ⟨ch, hch⟩ : ∃ ch, nestedDiv n = HNode.elem "div" [] ch := by
      cases n <;> exact ⟨_, rfl⟩
    rw [show nestedDiv (n + 1) = .elem "div" [] (.cons (nestedDiv n) .nil) from rfl, hch]
    rw [process_element]
    rw [if_neg (by decide :
      ¬((decide ("div" = "script") || decide ("div" = "style")) = true))]
    rw [if_neg (by decide : ¬("div" = "table"))]
    rw [textLeaf_none _ lvl (show nodeString (.elem "div" []
      (.cons (.elem "div" [] ch) .nil)) = none from hch ▸ nodeString_nestedDiv n)]
    rw [process_children]
    rw [show SForest.append .nil (SForest.cons
      (SemanticElement.mk (classify_element "div" [] ch).1 "div" (lvl + 1)
        (classify_element "div" [] ch).2
        (process_element (.elem "div" [] ch) (lvl + 1)))
      (process_children .nil lvl)) = SForest.cons
      (SemanticElement.mk .CONTAINER "div" (lvl + 1) q080
        (process_element (.elem "div" [] ch) (lvl + 1))) .nil from rfl]
    rw [← hch, process_element_nestedDiv n (lvl + 1)]
    rfl

theorem semDepthForest_semChain : (n lvl : Nat) → semDepthForest (semChain n lvl) = n
  | 0, _ => rfl
  | n + 1, lvl => by
    rw [semChain, semDepthForest, semDepth, semDepthForest_semChain n (lvl + 1)]
    rw [show semDepthForest .nil = 0 from rfl]
    omega

/-- C6: the Tree Builder has no recursion bound and no error outcome.
`_process_element`'s type is a total map from node trees to semantic
forests — there is no "input too deeply nested" condition anywhere in the
core — and on `n`-fold nested `div`s, for every `n`, it returns the full
`n`-deep chain of `CONTAINER` nodes.  Evaluated at 1100 nested divs —
deeper than CPython's default 1000-frame recursion limit, where the real
interpreter dies with an unhandled `RecursionError` — the embedded
builder hands back an 1101-deep ordinary tree. -/
theorem c6_builder_has_no_depth_error :
    process_element (nestedDiv 1100) 0 = semChain 1100 0 ∧
    semDepth (parse_html (nestedDiv 1100)) = 1101 ∧
    (∀ n lvl, process_element (nestedDiv n) lvl = semChain n lvl) := by
  refine ⟨process_element_nestedDiv 1100 0, ?_, process_element_nestedDiv⟩
  show 1 + semDepthForest (process_element (nestedDiv 1100) 0) = 1101
  rw [process_element_nestedDiv 1100 0, semDepthForest_semChain]

/-! ## Script and style handling (claim C5) -/

set_option maxRecDepth 4000 in
/-- C5 counterexample: on `scriptSoup`
(`<body><script>var a = 1;</script><p>Hello</p></body>`), the built tree
does contain a node for the `script` element — the generic child loop
passes the `script` child to `_classify_element` and appends it as a
`CONTAINER` (0.8) node before the recursion bails out — so the claimed
unconditional exclusion of script nodes is false. -/
theorem c5_counterexample :
    parse_html scriptSoup = scriptActual ∧
    hasNodeText "script" (parse_html scriptSoup) = true := by
  exact ⟨by decide, by decide⟩

/-- C5 amended: only the *subtree below* a `script` or `style` element is
suppressed — `_process_element` returns immediately on those tags, so
their text and descendants contribute nothing — while the `script`/`style`
element itself is still classified (`CONTAINER`, 0.8) and appended as a
childless node by the generic child loop; the check lives in the Tree
Builder, not the Node Adapter. -/
theorem c5_script_style_subtree_suppressed (a : List (String × String))
    (ch : HForest) (lvl : Nat) (rest : HForest) :
    process_element (.elem "script" a ch) lvl = .nil ∧
    process_element (.elem "style" a ch) lvl = .nil ∧
    process_children (.cons (.elem "script" a ch) rest) lvl =
      .cons (.mk .CONTAINER "script" (lvl + 1) q080 .nil) (process_children rest lvl) ∧
    process_children (.cons (.elem "style" a ch) rest) lvl =
      .cons (.mk .CONTAINER "style" (lvl + 1) q080 .nil) (process_children rest lvl) :=
  ⟨rfl, rfl, rfl, rfl⟩

/-! ## Section Resolver idempotency (claim C9) -/

theorem sectionPass_idem (cur : Option String) : (l : List FlatElement) →
    sectionPass cur (sectionPass cur l) = sectionPass cur l
  | [] => rfl
  | e :: rest => by
    cases e with
    | mk k t sec =>
      simp only [sectionPass]
      rw [sectionPass_idem _ rest]

/-- C9: the Section Resolver is idempotent — running
`SectionManager.process` twice over any ordered element sequence yields
exactly the same `section` assignment as running it once, because the
pass reads only `kind`/`text`, which it never changes. -/
theorem c9_section_resolver_idempotent (elements : List FlatElement) :
    SectionManager_process (SectionManager_process elements) =
      SectionManager_process elements :=
  sectionPass_idem none elements

/-! ## Verbose serialization round trip (claim C10) -/

theorem ofName_name (t : ElementType) : ElementType.ofName t.name = some t := by
  cases t <;> rfl

mutual
theorem from_to_dict : (e : SemanticElement) → from_dict (to_dict false e) = some e
  | .mk t s l c .nil => by
    rw [show to_dict false (.mk t s l c .nil) =
      .obj (.cons "type" (.str t.name) (.cons "content" (.str s)
        (.cons "level" (.intNum l) (.cons "confidence" (.num c) .nil)))) from rfl]
    rw [from_dict, ofName_name]
  | .mk t s l c (.cons e' t') => by
    rw [show to_dict false (.mk t s l c (.cons e' t')) =
      .obj (.cons "type" (.str t.name) (.cons "content" (.str s)
        (.cons "level" (.intNum l) (.cons "confidence" (.num c)
          (.cons "children" (.arr (to_dict_forest false (.cons e' t'))) .nil))))) from rfl]
    rw [from_dict, ofName_name]
    simp only [from_to_dict_arr (.cons e' t')]
theorem from_to_dict_arr : (f : SForest) → from_dict_arr (to_dict_forest false f) = some f
  | .nil => rfl
  | .cons e t => by
    rw [to_dict_forest, from_dict_arr, from_to_dict e, from_to_dict_arr t]
end

theorem to_dict_keys : (e : SemanticElement) →
    objKeys (to_dict false e) = ["type", "content", "level", "confidence"] ++
      (if e.children = .nil then [] else ["children"])
  | .mk _ _ _ _ .nil => rfl
  | .mk _ _ _ _ (.cons _ _) => rfl

/-- C10: reading the verbose JSON back reproduces every node exactly —
type, content, level, confidence and children, hence in particular the
children count — and each verbose record carries exactly the keys
`type`, `content`, `level`, `confidence`, plus a `children` array
present exactly when the node has children. -/
theorem c10_verbose_roundtrip (e : SemanticElement) :
    from_dict (to_dict false e) = some e ∧
    objKeys (to_dict false e) = ["type", "content", "level", "confidence"] ++
      (if e.children = .nil then [] else ["children"]) :=
  ⟨from_to_dict e, to_dict_keys e⟩

/-! ## The example pipeline (claim C1) -/

set_option maxRecDepth 10000 in
/-- C1 counterexample: on the spec §8.6 input document, the claim requires
the `DOCUMENT` root to have exactly three children, the first being
`SectionTitle("Item 1. Business")` at level 1.  The code's root instead
has exactly one child: a `CONTAINER` node with text `"html"` — html5lib
wraps every document in `html`/`head`/`body`, and the builder creates a
node for every named tag it walks through. -/
theorem c1_counterexample :
    (parse_html c1Soup).children.length = 1 ∧
    (parse_html c1Soup).children.head?.map SemanticElement.element_type =
      some .CONTAINER ∧
    (parse_html c1Soup).children.head?.map SemanticElement.text = some "html" := by
  exact ⟨by decide, by decide, by decide⟩

set_option maxRecDepth 10000 in
/-- C1 amended: what the pipeline actually produces for
`<h1>Item 1. Business</h1><p>We operate...</p><table>…</table>` — the
full tree `c1Actual`: a `CONTAINER` chain `html → {head, body}`, the tag
nodes `h1`/`p` each holding their classified text leaf (`"We operate..."`
comes out `SECTION_TITLE` 0.9, not `Paragraph`), and a doubled `TABLE`
node (child-loop node plus table-branch node) above the two rows and four
cells.  The `SemanticElement` tree has no `owning_section` field at all;
the `SectionManager` resolver belongs to the external variant's flat-list
model and never touches this tree. -/
theorem c1_actual_pipeline_tree : parse_html c1Soup = c1Actual := by decide
